import Mathlib

/-!
Event catalogue and spot reservation service.

A shallow embedding of `main.go`: the in-memory `EventStore`, the four HTTP
handlers (`ListEvents`, `GetEvent`, `ListSpots`, `ReserveSpot`) as functions
from a store and the request data to a response and the store afterwards, and
theorems about the reservation batch.

Modelling conventions.

* Go `int` fields are `Int`; no arithmetic is done on them, only equality.
* `Event.Price` is a `float64` that is only ever compared with `==`. Values
  decoded from JSON are finite, and on finite floats `==` is equality of the
  denoted number (`-0 == 0`), so the field is a rational number here.
* A handler receives the path value `eventID` as a string and, for
  `ReserveSpot`, the outcome of decoding the body into `[]string`
  (`none` when decoding fails).
* A response is the status code together with the value handed to the JSON
  encoder. A nil slice and an empty slice are the same list.
* Each `for ... range` loop is a fold over the ranged slice; a loop that
  assigns through an index is a fold over the indices.
-/

namespace EventApi

/-! ## Data model -/

/-- Record `Event` of `main.go`. -/
structure Event where
  ID : Int
  Name : String
  Organization : String
  Date : String
  Price : Rat
  Rating : String
  ImageURL : String
  CreatedAt : String
  Location : String
deriving DecidableEq, Repr

/-- Record `Spot` of `main.go`. -/
structure Spot where
  ID : Int
  Name : String
  Status : String
  EventID : Int
deriving DecidableEq, Repr

/-- Record `EventStore` of `main.go`; the global `store` is a value of it. -/
structure EventStore where
  Events : List Event
  Spots : List Spot
deriving DecidableEq, Repr

/-- The Go composite literal `Event{}`: every field at its zero value. -/
def Event.zero : Event := ⟨0, "", "", "", 0, "", "", "", ""⟩

/-- What a handler hands to the JSON encoder. -/
inductive Body where
  | message (m : String)
  | events (es : List Event)
  | event (e : Event)
  | spots (ss : List Spot)
deriving DecidableEq, Repr

/-- Status code and encoded value of one HTTP response. -/
structure Response where
  statusCode : Nat
  body : Body
deriving DecidableEq, Repr

/-- Constant `http.StatusOK`, the status when `WriteHeader` is not called. -/
def StatusOK : Nat := 200
/-- Constant `http.StatusCreated`. -/
def StatusCreated : Nat := 201
/-- Constant `http.StatusBadRequest`. -/
def StatusBadRequest : Nat := 400
/-- Constant `http.StatusNotFound`. -/
def StatusNotFound : Nat := 404

/-- Function `writeResponse`: the status code with a `MessageResponse`. -/
def writeResponse (message : String) (statusCode : Nat) : Response :=
  ⟨statusCode, Body.message message⟩

/-! ## Library functions used by the handlers -/

/-- Value of a decimal digit, `none` for any other character. -/
def digitValue (c : Char) : Option Nat :=
  if 48 ≤ c.toNat ∧ c.toNat ≤ 57 then some (c.toNat - 48) else none

/-- Reads a run of decimal digits, most significant first. -/
def parseDigits : List Char → Nat → Option Nat
  | [], acc => some acc
  | c :: cs, acc =>
    match digitValue c with
    | some d => parseDigits cs (acc * 10 + d)
    | none => none

/-- Go `strconv.Atoi` on a 64-bit platform: an optional sign followed by at
least one decimal digit and nothing else, the value within the range of `int`;
`none` stands for a non-nil error. -/
def Atoi (s : String) : Option Int :=
  let signed : Bool × List Char :=
    match s.data with
    | '-' :: rest => (true, rest)
    | '+' :: rest => (false, rest)
    | rest => (false, rest)
  if signed.2 = [] then none
  else
    match parseDigits signed.2 0 with
    | none => none
    | some n =>
      let v : Int := if signed.1 then -(n : Int) else (n : Int)
      if -9223372036854775808 ≤ v ∧ v ≤ 9223372036854775807 then some v else none

/-- Go `strings.Join`. -/
def Join (elems : List String) (sep : String) : String :=
  sep.intercalate elems

/-! ## Handlers -/

/-- The lookup loop shared by `GetEvent`, `ListSpots` and `ReserveSpot`:
`var event Event`, then the first `e` in `store.Events` with
`e.ID == intEventId` is assigned and the loop breaks. -/
def findEvent : List Event → Int → Event
  | [], _ => Event.zero
  | e :: es, intEventId => if e.ID = intEventId then e else findEvent es intEventId

/-- Handler `ListEvents`. -/
def ListEvents (store : EventStore) : Response × EventStore :=
  (⟨StatusOK, Body.events store.Events⟩, store)

/-- Handler `GetEvent`. -/
def GetEvent (store : EventStore) (eventId : String) : Response × EventStore :=
  if eventId = "" then (writeResponse "Event ID is required" StatusBadRequest, store)
  else
    match Atoi eventId with
    | none => (writeResponse "Invalid event ID" StatusBadRequest, store)
    | some intEventId =>
      let event := findEvent store.Events intEventId
      if event = Event.zero then (writeResponse "Event not found" StatusNotFound, store)
      else (⟨StatusOK, Body.event event⟩, store)

/-- The collecting loop of `ListSpots`: `spots = append(spots, spot)` for each
spot whose `EventID` equals `event.ID`. -/
def collectSpots (spots : List Spot) (eventID : Int) : List Spot :=
  spots.foldl (fun acc spot => if spot.EventID = eventID then acc ++ [spot] else acc) []

/-- Handler `ListSpots`. -/
def ListSpots (store : EventStore) (eventId : String) : Response × EventStore :=
  if eventId = "" then (writeResponse "Event ID is required" StatusBadRequest, store)
  else
    match Atoi eventId with
    | none => (writeResponse "Invalid event ID" StatusBadRequest, store)
    | some intEventId =>
      let event := findEvent store.Events intEventId
      if event = Event.zero then (writeResponse "Event not found" StatusNotFound, store)
      else (⟨StatusOK, Body.spots (collectSpots store.Spots event.ID)⟩, store)

/-- Inner loop of the existence check: `found` becomes true at the first spot
with `spot.EventID == event.ID && spot.Name == spotName`. -/
def spotFound : List Spot → Int → String → Bool
  | [], _, _ => false
  | spot :: rest, eventID, spotName =>
    if spot.EventID = eventID ∧ spot.Name = spotName then true
    else spotFound rest eventID spotName

/-- First pass of `ReserveSpot`: the slice `notFoundSpots`. -/
def notFoundSpots (spots : List Spot) (eventID : Int) (spotParams : List String) :
    List String :=
  spotParams.foldl
    (fun acc spotName => if spotFound spots eventID spotName then acc else acc ++ [spotName]) []

/-- Second pass of `ReserveSpot`: the slice `reservedSpots`, one entry for each
pair of a requested name and a reserved spot of the event bearing it. -/
def reservedSpots (spots : List Spot) (eventID : Int) (spotParams : List String) :
    List String :=
  spotParams.foldl
    (fun acc spotName =>
      spots.foldl
        (fun acc spot =>
          if spot.EventID ≠ eventID then acc
          else if spot.Name = spotName ∧ spot.Status = "reserved" then acc ++ [spotName]
          else acc)
        acc)
    []

/-- One iteration of the inner commit loop at index `i`:
`store.Spots[i].Status = "reserved"` when the spot read at `i` matches. -/
def reserveAt (eventID : Int) (spotName : String) (spots : List Spot) (i : Nat) : List Spot :=
  match spots[i]? with
  | some spot =>
    if spot.EventID = eventID ∧ spot.Name = spotName then
      spots.set i { spot with Status := "reserved" }
    else spots
  | none => spots

/-- Third pass of `ReserveSpot`: for each requested name, walk the indices of
`store.Spots` and assign through the index. -/
def reserveSpots (spots : List Spot) (eventID : Int) (spotParams : List String) : List Spot :=
  spotParams.foldl
    (fun spots spotName => (List.range spots.length).foldl (reserveAt eventID spotName) spots)
    spots

/-- Handler `ReserveSpot`; `body` is the decoded `spotParams`, `none` when the
decoder reports an error. -/
def ReserveSpot (store : EventStore) (eventId : String) (body : Option (List String)) :
    Response × EventStore :=
  if eventId = "" then (writeResponse "Event ID is required" StatusBadRequest, store)
  else
    match Atoi eventId with
    | none => (writeResponse "Invalid event ID" StatusBadRequest, store)
    | some intEventId =>
      match body with
      | none =>
        (writeResponse
          "Invalid request body. Expected an array of strings with the spot names"
          StatusBadRequest, store)
      | some spotParams =>
        let event := findEvent store.Events intEventId
        if event = Event.zero then (writeResponse "Event not found" StatusNotFound, store)
        else
          let missing := notFoundSpots store.Spots event.ID spotParams
          if missing.length > 0 then
            (writeResponse ("Spot " ++ Join missing ", " ++ " not found") StatusNotFound, store)
          else
            let taken := reservedSpots store.Spots event.ID spotParams
            if taken.length > 0 then
              (writeResponse ("Spot " ++ Join taken ", " ++ " already reserved")
                StatusBadRequest, store)
            else
              (writeResponse "Spots reserved successfully" StatusCreated,
                { store with Spots := reserveSpots store.Spots event.ID spotParams })

/-! ## Vocabulary of the specification -/

/-- Some spot of event `eventID` bears the name `name`. -/
def SpotExists (store : EventStore) (eventID : Int) (name : String) : Prop :=
  ∃ s ∈ store.Spots, s.EventID = eventID ∧ s.Name = name

/-- Some spot of event `eventID` bears the name `name` and is reserved. -/
def SpotReserved (store : EventStore) (eventID : Int) (name : String) : Prop :=
  ∃ s ∈ store.Spots, s.EventID = eventID ∧ s.Name = name ∧ s.Status = "reserved"

instance (store : EventStore) (eventID : Int) (name : String) :
    Decidable (SpotExists store eventID name) := by
  unfold SpotExists; infer_instance

instance (store : EventStore) (eventID : Int) (name : String) :
    Decidable (SpotReserved store eventID name) := by
  unfold SpotReserved; infer_instance

/-- The requested names that no spot of the event bears, in input order with
duplicates kept. -/
def missingNames (store : EventStore) (eventID : Int) (names : List String) : List String :=
  names.filter (fun n => decide (¬ SpotExists store eventID n))

/-- The requested names borne by a reserved spot of the event, in input order
with duplicates kept. -/
def takenNames (store : EventStore) (eventID : Int) (names : List String) : List String :=
  names.filter (fun n => decide (SpotReserved store eventID n))

/-- Spot names are unique within an event. -/
def UniqueNames (store : EventStore) : Prop :=
  store.Spots.Pairwise (fun a b => ¬ (a.EventID = b.EventID ∧ a.Name = b.Name))

instance (store : EventStore) : Decidable (UniqueNames store) := by
  unfold UniqueNames; infer_instance

/-- The event check of the handlers passes for `intEventId`: the looked-up
event differs from `Event{}`. -/
def EventCheckPasses (store : EventStore) (intEventId : Int) : Prop :=
  findEvent store.Events intEventId ≠ Event.zero

instance (store : EventStore) (intEventId : Int) :
    Decidable (EventCheckPasses store intEventId) := by
  unfold EventCheckPasses; infer_instance

/-- The response of a successful reservation. -/
def reservedOk : Response := writeResponse "Spots reserved successfully" StatusCreated

/-- The response for an event that is not found. -/
def eventNotFound : Response := writeResponse "Event not found" StatusNotFound

/-- What the commit loop does to one spot for one requested name. -/
def markReserved (eventID : Int) (spotName : String) (s : Spot) : Spot :=
  if s.EventID = eventID ∧ s.Name = spotName then { s with Status := "reserved" } else s

/-- What the whole commit pass does to one spot. -/
def markAll (eventID : Int) (spotParams : List String) (s : Spot) : Spot :=
  if s.EventID = eventID ∧ s.Name ∈ spotParams then { s with Status := "reserved" } else s

/-- The test of the second pass on one spot for one requested name. -/
def takenBy (eventID : Int) (name : String) (s : Spot) : Bool :=
  decide (s.EventID = eventID ∧ s.Name = name ∧ s.Status = "reserved")

/-- An event used in the worked examples. -/
def demoEvent : Event := ⟨1, "Show", "Org", "2024-01-01", 10, "L", "img", "2023-12-01", "Hall"⟩

/-- The scenario of the specification: event 1 with `A1` available and `A2`
reserved, a further spot `B1`, and a spot `A1` of another event. -/
def demoStore : EventStore :=
  ⟨[demoEvent, ⟨2, "Fair", "Org", "2024-02-01", 5, "L", "img", "2023-12-02", "Park"⟩],
   [⟨1, "A1", "available", 1⟩, ⟨2, "A2", "reserved", 1⟩, ⟨3, "B1", "available", 1⟩,
    ⟨4, "A1", "available", 2⟩]⟩

/-- A store whose first event with id 0 is the record `Event{}` and whose
second event has id 0 as well; the spot `A1` belongs to event 0. -/
def shadowedStore : EventStore :=
  ⟨[Event.zero, ⟨0, "Gala", "Org", "2024-03-01", 7, "L", "img", "2023-12-03", "Pier"⟩],
   [⟨1, "A1", "available", 0⟩]⟩

/-- The first event in load order whose id is `id`, if any. -/
def firstEvent (store : EventStore) (id : Int) : Option Event :=
  store.Events.find? (fun e => decide (e.ID = id))

/-- The list of names with every later repeat of a name removed. -/
def removeRepeats : List String → List String
  | [] => []
  | n :: ns => n :: (removeRepeats ns).filter (fun m => decide (m ≠ n))

/-- Every spot of the store has status `available` or `reserved`. -/
def StatusesKnown (store : EventStore) : Prop :=
  ∀ s ∈ store.Spots, s.Status = "available" ∨ s.Status = "reserved"

instance (store : EventStore) : Decidable (StatusesKnown store) := by
  unfold StatusesKnown; infer_instance

/-- Spot ids are unique in the store. -/
def UniqueIDs (store : EventStore) : Prop :=
  (store.Spots.map (fun s => s.ID)).Nodup

instance (store : EventStore) : Decidable (UniqueIDs store) := by
  unfold UniqueIDs; infer_instance

/-- The fields of a spot that identify it: id, name and event. -/
def Spot.key (s : Spot) : Int × String × Int := (s.ID, s.Name, s.EventID)

/-- A store whose only event is the record `Event{}`, with a spot `A1` of
event 0. -/
def zeroEventStore : EventStore :=
  ⟨[Event.zero], [⟨1, "A1", "available", 0⟩]⟩

/-- A store with a spot `A1` of event 1 whose status is neither `available`
nor `reserved`. -/
def blockedStore : EventStore :=
  ⟨[demoEvent], [⟨1, "A1", "blocked", 1⟩]⟩

/-- One request to the service. -/
inductive Call where
  | listEvents
  | getEvent (eventId : String)
  | listSpots (eventId : String)
  | reserveSpot (eventId : String) (body : Option (List String))
deriving DecidableEq, Repr

/-- Dispatch of one request to its handler. -/
def handle (store : EventStore) : Call → Response × EventStore
  | Call.listEvents => ListEvents store
  | Call.getEvent eventId => GetEvent store eventId
  | Call.listSpots eventId => ListSpots store eventId
  | Call.reserveSpot eventId body => ReserveSpot store eventId body

/-- The store after a sequence of requests handled one after another. -/
def runCalls (store : EventStore) (calls : List Call) : EventStore :=
  calls.foldl (fun s c => (handle s c).2) store

/-! ## Lemmas about the loops -/

theorem findEvent_zero_or_mem (events : List Event) (id : Int) :
    findEvent events id = Event.zero ∨
      ((findEvent events id).ID = id ∧ findEvent events id ∈ events) := by
  induction events with
  | nil => left; rfl
  | cons e es ih =>
    unfold findEvent
    by_cases h : e.ID = id
    · simp [h]
    · simp only [h, if_false]
      rcases ih with h0 | ⟨h1, h2⟩
      · left; exact h0
      · right; exact ⟨h1, List.mem_cons_of_mem _ h2⟩

theorem findEvent_ID (events : List Event) (id : Int)
    (h : findEvent events id ≠ Event.zero) : (findEvent events id).ID = id := by
  rcases findEvent_zero_or_mem events id with h0 | ⟨h1, _⟩
  · exact absurd h0 h
  · exact h1

theorem findEvent_absent (events : List Event) (id : Int)
    (h : ∀ e ∈ events, e.ID ≠ id) : findEvent events id = Event.zero := by
  induction events with
  | nil => rfl
  | cons e es ih =>
    unfold findEvent
    have he : e.ID ≠ id := h e (List.mem_cons_self _ _)
    simp only [he, if_false]
    exact ih (fun e' he' => h e' (List.mem_cons_of_mem _ he'))

theorem spotFound_iff (spots : List Spot) (eventID : Int) (name : String) :
    spotFound spots eventID name = true ↔
      ∃ s ∈ spots, s.EventID = eventID ∧ s.Name = name := by
  induction spots with
  | nil => simp [spotFound]
  | cons s rest ih =>
    unfold spotFound
    by_cases h : s.EventID = eventID ∧ s.Name = name
    · simp [h]
    · simp only [h, if_false, ih, List.mem_cons, exists_eq_or_imp, false_or]

theorem notFound_foldl (spots : List Spot) (eventID : Int) (names acc : List String) :
    names.foldl
      (fun acc spotName => if spotFound spots eventID spotName then acc else acc ++ [spotName])
      acc
    = acc ++ names.filter (fun n => !spotFound spots eventID n) := by
  induction names generalizing acc with
  | nil => simp
  | cons n ns ih =>
    simp only [List.foldl_cons, ih, List.filter_cons]
    by_cases h : spotFound spots eventID n = true
    · simp [h]
    · simp [h]

theorem notFoundSpots_eq_missingNames (store : EventStore) (eventID : Int)
    (names : List String) :
    notFoundSpots store.Spots eventID names = missingNames store eventID names := by
  unfold notFoundSpots missingNames
  rw [notFound_foldl, List.nil_append]
  apply List.filter_congr
  intro n _
  have := spotFound_iff store.Spots eventID n
  unfold SpotExists
  by_cases h : spotFound store.Spots eventID n = true
  · simp [h, this.mp h]
  · have h2 : ¬ ∃ s ∈ store.Spots, s.EventID = eventID ∧ s.Name = n := fun hx => h (this.mpr hx)
    simp [h, h2]

theorem reserved_inner_foldl (spots : List Spot) (eventID : Int) (name : String)
    (acc : List String) :
    spots.foldl
      (fun acc spot =>
        if spot.EventID ≠ eventID then acc
        else if spot.Name = name ∧ spot.Status = "reserved" then acc ++ [name]
        else acc)
      acc
    = acc ++ List.replicate (spots.countP (takenBy eventID name)) name := by
  induction spots generalizing acc with
  | nil => simp
  | cons s rest ih =>
    rw [List.foldl_cons, ih, List.countP_cons]
    by_cases h1 : s.EventID = eventID
    · by_cases h2 : s.Name = name ∧ s.Status = "reserved"
      · have h3 : takenBy eventID name s = true := by
          unfold takenBy; exact decide_eq_true ⟨h1, h2⟩
        rw [h3]
        simp only [h1, h2, ne_eq, not_true_eq_false, if_false, and_self, if_true,
          List.append_assoc, List.singleton_append]
        rw [← List.replicate_succ]
      · have h3 : takenBy eventID name s = false := by
          unfold takenBy; exact decide_eq_false (fun hx => h2 hx.2)
        rw [h3]
        simp [h1, h2]
    · have h3 : takenBy eventID name s = false := by
        unfold takenBy; exact decide_eq_false (fun hx => h1 hx.1)
      rw [h3]
      simp [h1]

theorem reserved_outer_foldl (spots : List Spot) (eventID : Int) (names acc : List String) :
    names.foldl
      (fun acc spotName =>
        spots.foldl
          (fun acc spot =>
            if spot.EventID ≠ eventID then acc
            else if spot.Name = spotName ∧ spot.Status = "reserved" then acc ++ [spotName]
            else acc)
          acc)
      acc
    = acc ++ names.flatMap
        (fun n => List.replicate (spots.countP (takenBy eventID n)) n) := by
  induction names generalizing acc with
  | nil => simp
  | cons n ns ih =>
    rw [List.foldl_cons, reserved_inner_foldl, ih, List.flatMap_cons, List.append_assoc]

theorem countP_pos_iff_reserved (store : EventStore) (eventID : Int) (name : String) :
    0 < store.Spots.countP (takenBy eventID name) ↔ SpotReserved store eventID name := by
  unfold SpotReserved
  rw [List.countP_pos_iff]
  simp [takenBy]

theorem reservedSpots_eq_nil_iff (store : EventStore) (eventID : Int) (names : List String) :
    reservedSpots store.Spots eventID names = [] ↔
      ∀ n ∈ names, ¬ SpotReserved store eventID n := by
  unfold reservedSpots
  rw [reserved_outer_foldl, List.nil_append]
  simp only [List.flatMap_eq_nil_iff, List.replicate_eq_nil_iff]
  constructor
  · intro h n hn hr
    have := (countP_pos_iff_reserved store eventID n).mpr hr
    have := h n hn
    omega
  · intro h n hn
    by_contra hc
    exact h n hn ((countP_pos_iff_reserved store eventID n).mp (Nat.pos_of_ne_zero hc))

theorem countP_le_one_of_unique (spots : List Spot) (eventID : Int) (name : String)
    (hu : spots.Pairwise (fun a b => ¬ (a.EventID = b.EventID ∧ a.Name = b.Name))) :
    spots.countP (takenBy eventID name) ≤ 1 := by
  induction spots with
  | nil => simp
  | cons s rest ih =>
    rw [List.pairwise_cons] at hu
    have ih1 := ih hu.2
    rw [List.countP_cons]
    by_cases h : takenBy eventID name s = true
    · have hs : s.EventID = eventID ∧ s.Name = name ∧ s.Status = "reserved" := by
        unfold takenBy at h; exact of_decide_eq_true h
      have h0 : rest.countP (takenBy eventID name) = 0 := by
        rw [List.countP_eq_zero]
        intro t ht hp
        have hp2 : t.EventID = eventID ∧ t.Name = name ∧ t.Status = "reserved" := by
          unfold takenBy at hp; exact of_decide_eq_true hp
        exact hu.1 t ht ⟨hs.1.trans hp2.1.symm, hs.2.1.trans hp2.2.1.symm⟩
      rw [h0, h]; simp
    · have hf : takenBy eventID name s = false := by
        cases hb : takenBy eventID name s
        · rfl
        · exact absurd hb h
      rw [hf]; simpa using ih1

theorem reservedSpots_eq_takenNames (store : EventStore) (eventID : Int)
    (names : List String) (hu : UniqueNames store) :
    reservedSpots store.Spots eventID names = takenNames store eventID names := by
  unfold reservedSpots takenNames
  rw [reserved_outer_foldl, List.nil_append]
  induction names with
  | nil => simp
  | cons n ns ih =>
    rw [List.flatMap_cons, ih, List.filter_cons]
    have hle := countP_le_one_of_unique store.Spots eventID n hu
    have hpos := countP_pos_iff_reserved store eventID n
    by_cases hr : SpotReserved store eventID n
    · have h1 : store.Spots.countP (takenBy eventID n) = 1 := by
        have := hpos.mpr hr
        omega
      rw [h1]; simp [hr]
    · have h0 : store.Spots.countP (takenBy eventID n) = 0 := by
        by_contra hc
        exact hr (hpos.mp (Nat.pos_of_ne_zero hc))
      rw [h0]; simp [hr]

theorem reserveAt_getElem? (eventID : Int) (name : String) (spots : List Spot) (i j : Nat) :
    (reserveAt eventID name spots i)[j]? =
      if j = i then (spots[j]?).map (markReserved eventID name) else spots[j]? := by
  unfold reserveAt
  by_cases hji : j = i
  · subst hji
    rw [if_pos rfl]
    cases hs : spots[j]? with
    | none => simp [hs]
    | some spot =>
      have hlt : j < spots.length := by
        by_contra hc
        rw [List.getElem?_eq_none (Nat.le_of_not_lt hc)] at hs
        exact Option.noConfusion hs
      simp only [Option.map_some']
      unfold markReserved
      by_cases hc : spot.EventID = eventID ∧ spot.Name = name
      · rw [if_pos hc, if_pos hc, List.getElem?_set, if_pos rfl, if_pos hlt]
      · rw [if_neg hc, if_neg hc, hs]
  · rw [if_neg hji]
    cases hs : spots[i]? with
    | none => rfl
    | some spot =>
      simp only []
      by_cases hc : spot.EventID = eventID ∧ spot.Name = name
      · rw [if_pos hc, List.getElem?_set_ne (fun h => hji h.symm)]
      · rw [if_neg hc]

theorem reserve_range_getElem? (eventID : Int) (name : String) (spots : List Spot)
    (k j : Nat) :
    ((List.range k).foldl (reserveAt eventID name) spots)[j]? =
      if j < k then (spots[j]?).map (markReserved eventID name) else spots[j]? := by
  induction k with
  | zero => simp
  | succ k ih =>
    rw [List.range_succ, List.foldl_append, List.foldl_cons, List.foldl_nil,
      reserveAt_getElem?, ih]
    by_cases h1 : j = k
    · subst h1
      simp
    · by_cases h2 : j < k
      · have h3 : j < k + 1 := Nat.lt_succ_of_lt h2
        simp [h1, h2, h3]
      · have h3 : ¬ j < k + 1 := by omega
        simp [h1, h2, h3]

theorem reserve_inner_eq_map (eventID : Int) (name : String) (spots : List Spot) :
    (List.range spots.length).foldl (reserveAt eventID name) spots
      = spots.map (markReserved eventID name) := by
  apply List.ext_getElem?
  intro j
  rw [reserve_range_getElem?, List.getElem?_map]
  by_cases h : j < spots.length
  · rw [if_pos h]
  · rw [if_neg h, List.getElem?_eq_none (Nat.le_of_not_lt h)]
    rfl

theorem markAll_cons (eventID : Int) (name : String) (names : List String) (s : Spot) :
    markAll eventID names (markReserved eventID name s) = markAll eventID (name :: names) s := by
  unfold markAll markReserved
  by_cases h1 : s.EventID = eventID
  · by_cases h2 : s.Name = name
    · by_cases h3 : s.Name ∈ names
      · simp [h1, h2, h3]
      · simp [h1, h2]
    · by_cases h3 : s.Name ∈ names
      · simp [h1, h2, h3]
      · simp [h1, h2, h3]
  · simp [h1]

theorem reserveSpots_eq_map (eventID : Int) (names : List String) (spots : List Spot) :
    reserveSpots spots eventID names = spots.map (markAll eventID names) := by
  unfold reserveSpots
  induction names generalizing spots with
  | nil =>
    simp only [List.foldl_nil]
    have : markAll eventID [] = id := by
      funext s; simp [markAll]
    rw [this, List.map_id]
  | cons n ns ih =>
    rw [List.foldl_cons, reserve_inner_eq_map, ih, List.map_map]
    apply List.map_congr_left
    intro s _
    exact markAll_cons eventID n ns s

/-! ## The shape of a `ReserveSpot` call whose path value parses -/

theorem Atoi_ne_empty (path : String) (id : Int) (hp : Atoi path = some id) : path ≠ "" := by
  intro h
  subst h
  exact Option.noConfusion hp

theorem ReserveSpot_unfold (store : EventStore) (path : String) (id : Int)
    (names : List String) (hp : Atoi path = some id) :
    ReserveSpot store path (some names) =
      if findEvent store.Events id = Event.zero then (eventNotFound, store)
      else if missingNames store id names ≠ [] then
        (writeResponse ("Spot " ++ Join (missingNames store id names) ", " ++ " not found")
          StatusNotFound, store)
      else if reservedSpots store.Spots id names ≠ [] then
        (writeResponse
          ("Spot " ++ Join (reservedSpots store.Spots id names) ", " ++ " already reserved")
          StatusBadRequest, store)
      else (reservedOk, { store with Spots := store.Spots.map (markAll id names) }) := by
  unfold ReserveSpot
  rw [if_neg (Atoi_ne_empty path id hp), hp]
  simp only []
  by_cases he : findEvent store.Events id = Event.zero
  · rw [if_pos he, if_pos he]; rfl
  · rw [if_neg he, if_neg he, findEvent_ID _ _ he, notFoundSpots_eq_missingNames,
      reserveSpots_eq_map]
    by_cases hm : missingNames store id names = []
    · have hm1 : ¬ (missingNames store id names).length > 0 := by simp [hm]
      have hm2 : ¬ missingNames store id names ≠ [] := fun h => h hm
      rw [if_neg hm1, if_neg hm2]
      by_cases ht : reservedSpots store.Spots id names = []
      · have ht1 : ¬ (reservedSpots store.Spots id names).length > 0 := by simp [ht]
        have ht2 : ¬ reservedSpots store.Spots id names ≠ [] := fun h => h ht
        rw [if_neg ht1, if_neg ht2]; rfl
      · have ht1 : (reservedSpots store.Spots id names).length > 0 :=
          List.length_pos.mpr ht
        rw [if_pos ht1, if_pos ht]
    · have hm1 : (missingNames store id names).length > 0 := List.length_pos.mpr hm
      rw [if_pos hm1, if_pos hm]

theorem missingNames_eq_nil_iff (store : EventStore) (id : Int) (names : List String) :
    missingNames store id names = [] ↔ ∀ n ∈ names, SpotExists store id n := by
  unfold missingNames
  rw [List.filter_eq_nil_iff]
  constructor
  · intro h n hn
    by_contra hc
    exact h n hn (decide_eq_true hc)
  · intro h n hn hd
    exact (of_decide_eq_true hd) (h n hn)

theorem ReserveSpot_store_cases (store : EventStore) (path : String)
    (body : Option (List String)) :
    (ReserveSpot store path body).2 = store ∨
      ∃ id names, Atoi path = some id ∧ body = some names ∧
        EventCheckPasses store id ∧
        (∀ n ∈ names, SpotExists store id n) ∧
        (∀ n ∈ names, ¬ SpotReserved store id n) ∧
        ReserveSpot store path body =
          (reservedOk, { store with Spots := store.Spots.map (markAll id names) }) := by
  by_cases hempty : path = ""
  · left; unfold ReserveSpot; rw [if_pos hempty]
  · cases hp : Atoi path with
    | none => left; unfold ReserveSpot; rw [if_neg hempty, hp]
    | some id =>
      cases body with
      | none => left; unfold ReserveSpot; rw [if_neg hempty, hp]
      | some names =>
        rw [ReserveSpot_unfold store path id names hp]
        by_cases he : findEvent store.Events id = Event.zero
        · left; rw [if_pos he]
        · rw [if_neg he]
          by_cases hm : missingNames store id names = []
          · rw [if_neg (fun h => h hm)]
            by_cases ht : reservedSpots store.Spots id names = []
            · rw [if_neg (fun h => h ht)]
              right
              exact ⟨id, names, rfl, rfl, he, (missingNames_eq_nil_iff _ _ _).mp hm,
                (reservedSpots_eq_nil_iff _ _ _).mp ht, rfl⟩
            · left; rw [if_pos ht]
          · left; rw [if_pos hm]

/-! ## Effect of the commit pass on one spot -/

theorem markAll_EventID (id : Int) (names : List String) (s : Spot) :
    (markAll id names s).EventID = s.EventID := by
  unfold markAll; split <;> rfl

theorem markAll_Name (id : Int) (names : List String) (s : Spot) :
    (markAll id names s).Name = s.Name := by
  unfold markAll; split <;> rfl

theorem markAll_ID (id : Int) (names : List String) (s : Spot) :
    (markAll id names s).ID = s.ID := by
  unfold markAll; split <;> rfl

theorem markAll_of_mem (id : Int) (names : List String) (s : Spot)
    (h1 : s.EventID = id) (h2 : s.Name ∈ names) :
    (markAll id names s).Status = "reserved" := by
  unfold markAll; rw [if_pos ⟨h1, h2⟩]

theorem markAll_of_not (id : Int) (names : List String) (s : Spot)
    (h : ¬ (s.EventID = id ∧ s.Name ∈ names)) : markAll id names s = s := by
  unfold markAll; rw [if_neg h]

theorem markAll_reserved (id : Int) (names : List String) (s : Spot)
    (h : s.Status = "reserved") : (markAll id names s).Status = "reserved" := by
  unfold markAll; split
  · rfl
  · exact h

/-! ## Claims about the reservation batch -/

/-- C1, atomicity of `ReserveSpot`: when the path value parses to an event id
and at least one requested name is missing under that event or names a spot
that is already reserved, the store after the call equals the store before it,
so no spot changes status. -/
theorem ReserveSpot_atomic (store : EventStore) (path : String) (id : Int)
    (names : List String) (hp : Atoi path = some id)
    (hbad : ∃ n ∈ names, ¬ SpotExists store id n ∨ SpotReserved store id n) :
    (ReserveSpot store path (some names)).2 = store := by
  rcases ReserveSpot_store_cases store path (some names) with h | ⟨id2, names2, hp2, hb, _, hex, hres, _⟩
  · exact h
  · exfalso
    have hid : id2 = id := by
      rw [hp] at hp2; exact (Option.some.inj hp2).symm
    have hn : names2 = names := (Option.some.inj hb).symm
    subst hid; subst hn
    rcases hbad with ⟨n, hn, hmiss | htaken⟩
    · exact hmiss (hex n hn)
    · exact hres n hn htaken

/-- Witness of C1 on the scenario of the specification: `A1` is available and
`Z9` does not exist, and the store is unchanged. -/
theorem ReserveSpot_atomic_witness :
    Atoi "1" = some 1 ∧
    (∃ n ∈ ["A1", "Z9"], ¬ SpotExists demoStore 1 n ∨ SpotReserved demoStore 1 n) ∧
    (ReserveSpot demoStore "1" (some ["A1", "Z9"])).2 = demoStore :=
  ⟨by decide, by decide, ReserveSpot_atomic demoStore "1" 1 ["A1", "Z9"] (by decide) (by decide)⟩

theorem handle_store_cases (store : EventStore) (c : Call) :
    (handle store c).2 = store ∨
      ∃ id names, (handle store c).2 =
        { store with Spots := store.Spots.map (markAll id names) } := by
  cases c with
  | listEvents => left; rfl
  | getEvent eventId =>
    left
    simp only [handle, GetEvent]
    repeat' (first | rfl | split)
  | listSpots eventId =>
    left
    simp only [handle, ListSpots]
    repeat' (first | rfl | split)
  | reserveSpot eventId body =>
    rcases ReserveSpot_store_cases store eventId body with h | ⟨id, names, _, _, _, _, _, h⟩
    · left; exact h
    · right; exact ⟨id, names, by simp only [handle]; rw [h]⟩

theorem SpotReserved_map_markAll (store : EventStore) (id2 : Int) (names2 : List String)
    (id : Int) (n : String) (h : SpotReserved store id n) :
    SpotReserved { store with Spots := store.Spots.map (markAll id2 names2) } id n := by
  rcases h with ⟨s, hs, h1, h2, h3⟩
  refine ⟨markAll id2 names2 s, List.mem_map_of_mem _ hs, ?_, ?_, ?_⟩
  · rw [markAll_EventID]; exact h1
  · rw [markAll_Name]; exact h2
  · exact markAll_reserved _ _ _ h3

theorem handle_preserves_reserved (store : EventStore) (c : Call) (id : Int) (n : String)
    (h : SpotReserved store id n) : SpotReserved (handle store c).2 id n := by
  rcases handle_store_cases store c with h0 | ⟨id2, names2, h0⟩
  · rw [h0]; exact h
  · rw [h0]; exact SpotReserved_map_markAll store id2 names2 id n h

theorem runCalls_preserves_reserved (calls : List Call) (store : EventStore) (id : Int)
    (n : String) (h : SpotReserved store id n) : SpotReserved (runCalls store calls) id n := by
  induction calls generalizing store with
  | nil => exact h
  | cons c cs ih =>
    unfold runCalls
    rw [List.foldl_cons]
    exact ih _ (handle_preserves_reserved store c id n h)

theorem ReserveSpot_created_iff (store : EventStore) (path : String) (id : Int)
    (names : List String) (hp : Atoi path = some id) :
    (ReserveSpot store path (some names)).1.statusCode = StatusCreated ↔
      EventCheckPasses store id ∧ (∀ n ∈ names, SpotExists store id n) ∧
        (∀ n ∈ names, ¬ SpotReserved store id n) := by
  rw [ReserveSpot_unfold store path id names hp]
  unfold EventCheckPasses
  by_cases he : findEvent store.Events id = Event.zero
  · rw [if_pos he]
    constructor
    · intro h
      have h2 : StatusNotFound = StatusCreated := h
      exact absurd h2 (by decide)
    · intro h; exact absurd he h.1
  · rw [if_neg he]
    by_cases hm : missingNames store id names = []
    · rw [if_neg (fun h => h hm)]
      by_cases ht : reservedSpots store.Spots id names = []
      · rw [if_neg (fun h => h ht)]
        constructor
        · intro _
          exact ⟨he, (missingNames_eq_nil_iff _ _ _).mp hm,
            (reservedSpots_eq_nil_iff _ _ _).mp ht⟩
        · intro _; rfl
      · rw [if_pos ht]
        constructor
        · intro h
          have h2 : StatusBadRequest = StatusCreated := h
          exact absurd h2 (by decide)
        · intro h; exact absurd ((reservedSpots_eq_nil_iff _ _ _).mpr h.2.2) ht
    · rw [if_pos hm]
      constructor
      · intro h
        have h2 : StatusNotFound = StatusCreated := h
        exact absurd h2 (by decide)
      · intro h; exact absurd ((missingNames_eq_nil_iff _ _ _).mpr h.2.1) hm

theorem ReserveSpot_created_store (store : EventStore) (path : String) (id : Int)
    (names : List String) (hp : Atoi path = some id)
    (h : (ReserveSpot store path (some names)).1.statusCode = StatusCreated) :
    ReserveSpot store path (some names) =
      (reservedOk, { store with Spots := store.Spots.map (markAll id names) }) := by
  have hc := (ReserveSpot_created_iff store path id names hp).mp h
  rw [ReserveSpot_unfold store path id names hp]
  rw [if_neg hc.1, if_neg (fun hx => hx ((missingNames_eq_nil_iff _ _ _).mpr hc.2.1)),
    if_neg (fun hx => hx ((reservedSpots_eq_nil_iff _ _ _).mpr hc.2.2))]

theorem ReserveSpot_created_reserves (store : EventStore) (path : String) (id : Int)
    (names : List String) (hp : Atoi path = some id)
    (h : (ReserveSpot store path (some names)).1.statusCode = StatusCreated)
    (n : String) (hn : n ∈ names) :
    SpotReserved (ReserveSpot store path (some names)).2 id n := by
  have hc := (ReserveSpot_created_iff store path id names hp).mp h
  rw [ReserveSpot_created_store store path id names hp h]
  rcases hc.2.1 n hn with ⟨s, hs, h1, h2⟩
  refine ⟨markAll id names s, List.mem_map_of_mem _ hs, ?_, ?_, ?_⟩
  · rw [markAll_EventID]; exact h1
  · rw [markAll_Name]; exact h2
  · exact markAll_of_mem _ _ _ h1 (h2 ▸ hn)

/-- C2, never double-booked in a sequential run: take any initial store, any
requests `before`, a `ReserveSpot` call for event `id`, any requests `between`
and a second `ReserveSpot` call for the same event. If both calls answer 201,
neither names a spot that was reserved in the store it ran against, and the
two calls have no spot name in common. -/
theorem ReserveSpot_never_double_booked (store : EventStore) (before between : List Call)
    (path1 path2 : String) (id : Int) (names1 names2 : List String)
    (hp1 : Atoi path1 = some id) (hp2 : Atoi path2 = some id)
    (h1 : (ReserveSpot (runCalls store before) path1 (some names1)).1.statusCode
      = StatusCreated)
    (h2 : (ReserveSpot
        (runCalls (ReserveSpot (runCalls store before) path1 (some names1)).2 between)
        path2 (some names2)).1.statusCode = StatusCreated) :
    (∀ n ∈ names1, ¬ SpotReserved (runCalls store before) id n) ∧
    (∀ n ∈ names2, ¬ SpotReserved
      (runCalls (ReserveSpot (runCalls store before) path1 (some names1)).2 between) id n) ∧
    (∀ n, n ∈ names1 → n ∉ names2) := by
  have c1 := (ReserveSpot_created_iff _ path1 id names1 hp1).mp h1
  have c2 := (ReserveSpot_created_iff _ path2 id names2 hp2).mp h2
  refine ⟨c1.2.2, c2.2.2, ?_⟩
  intro n hn1 hn2
  have hr := ReserveSpot_created_reserves _ path1 id names1 hp1 h1 n hn1
  have hr2 := runCalls_preserves_reserved between _ id n hr
  exact c2.2.2 n hn2 hr2

/-- Witness of C2: on the scenario store a batch for `A1` of event 1 succeeds,
reads and a failing batch follow, and a later batch for `B1` of event 1
succeeds too. -/
theorem ReserveSpot_never_double_booked_witness :
    (∀ n ∈ ["A1"], ¬ SpotReserved (runCalls demoStore [Call.listEvents]) 1 n) ∧
    (∀ n ∈ ["B1"], ¬ SpotReserved
      (runCalls (ReserveSpot (runCalls demoStore [Call.listEvents]) "1" (some ["A1"])).2
        [Call.listSpots "1", Call.reserveSpot "1" (some ["A1"])]) 1 n) ∧
    (∀ n, n ∈ ["A1"] → n ∉ ["B1"]) :=
  ReserveSpot_never_double_booked demoStore [Call.listEvents]
    [Call.listSpots "1", Call.reserveSpot "1" (some ["A1"])]
    "1" "+1" 1 ["A1"] ["B1"] (by decide) (by decide) (by decide) (by decide)

/-- C3, all missing names are reported: when the path value parses to an
event id whose event check passes and `missingNames` (the requested names no
spot of the event bears, in input order with duplicates) is non-empty,
`ReserveSpot` answers 404 with the message `Spot `, the missing names joined by
`, `, ` not found`, and leaves the store as it was; a name is reported exactly
when it is requested and no spot of the event bears it. -/
theorem ReserveSpot_reports_all_missing (store : EventStore) (path : String) (id : Int)
    (names : List String) (hp : Atoi path = some id) (he : EventCheckPasses store id)
    (hm : missingNames store id names ≠ []) :
    ReserveSpot store path (some names) =
      (writeResponse ("Spot " ++ Join (missingNames store id names) ", " ++ " not found")
        StatusNotFound, store) ∧
    missingNames store id names = names.filter (fun n => decide (¬ SpotExists store id n)) ∧
    (∀ n, n ∈ missingNames store id names ↔ n ∈ names ∧ ¬ SpotExists store id n) := by
  refine ⟨?_, rfl, ?_⟩
  · rw [ReserveSpot_unfold store path id names hp, if_neg he, if_pos hm]
  · intro n
    unfold missingNames
    rw [List.mem_filter, decide_eq_true_iff]

/-- Witness of C3: of `A3, A1, B9, A3` only `A1` exists under event 1, and the
three others are reported in input order with the repeat. -/
theorem ReserveSpot_reports_all_missing_witness :
    ReserveSpot demoStore "1" (some ["A3", "A1", "B9", "A3"]) =
      (writeResponse "Spot A3, B9, A3 not found" 404, demoStore) :=
  (ReserveSpot_reports_all_missing demoStore "1" 1 ["A3", "A1", "B9", "A3"]
    (by decide) (by decide) (by decide)).1

/-- C4, all already-reserved names are reported: in a store whose spot names
are unique within an event, when the path value parses to an event id whose
event check passes, every requested name exists under the event and
`takenNames` (the requested names whose spot is reserved, in input order with
duplicates) is non-empty, `ReserveSpot` answers 400 with the message `Spot `,
the taken names joined by `, `, ` already reserved`, and the store is
unchanged. -/
theorem ReserveSpot_reports_all_taken (store : EventStore) (path : String) (id : Int)
    (names : List String) (hu : UniqueNames store) (hp : Atoi path = some id)
    (he : EventCheckPasses store id) (hall : ∀ n ∈ names, SpotExists store id n)
    (ht : takenNames store id names ≠ []) :
    ReserveSpot store path (some names) =
      (writeResponse ("Spot " ++ Join (takenNames store id names) ", " ++ " already reserved")
        StatusBadRequest, store) ∧
    takenNames store id names = names.filter (fun n => decide (SpotReserved store id n)) := by
  refine ⟨?_, rfl⟩
  have hm : missingNames store id names = [] := (missingNames_eq_nil_iff _ _ _).mpr hall
  rw [ReserveSpot_unfold store path id names hp, if_neg he, if_neg (fun h => h hm),
    reservedSpots_eq_takenNames store id names hu, if_pos ht]

/-- Witness of C4: `A2` is the reserved spot of event 1 and is requested
twice, around the available `A1`. -/
theorem ReserveSpot_reports_all_taken_witness :
    ReserveSpot demoStore "1" (some ["A2", "A1", "A2"]) =
      (writeResponse "Spot A2, A2 already reserved" 400, demoStore) :=
  (ReserveSpot_reports_all_taken demoStore "1" 1 ["A2", "A1", "A2"]
    (by decide) (by decide) (by decide) (by decide) (by decide)).1

/-- C5 as stated fails: `shadowedStore` holds an event with id 0 that is not
the all-zero record, the name `A1` names an available spot of event 0, and yet
`ReserveSpot` answers 404 `Event not found`, because the lookup stops at the
first event with id 0, which is the all-zero record. -/
theorem ReserveSpot_success_counterexample :
    ¬ (∀ (store : EventStore) (path : String) (id : Int) (names : List String),
        Atoi path = some id →
        (∃ e ∈ store.Events, e.ID = id ∧ e ≠ Event.zero) →
        ((ReserveSpot store path (some names)).1 = reservedOk ↔
          ∀ n ∈ names, SpotExists store id n ∧ ¬ SpotReserved store id n)) := by
  intro h
  have h1 := h shadowedStore "0" 0 ["A1"] (by decide) (by decide)
  have h2 : (ReserveSpot shadowedStore "0" (some ["A1"])).1 = reservedOk :=
    h1.mpr (by decide)
  exact absurd h2 (by decide)

/-- C5 amended, success of `ReserveSpot`: when the path value parses to an
event id whose event check passes (the first event in load order with that id
is not the all-zero record), `ReserveSpot` answers 201
`Spots reserved successfully` if and only if every requested name names a spot
of that event and none of those spots is reserved; and whenever it answers 201,
every spot of that event in the store afterwards whose name is requested has
status `reserved`. -/
theorem ReserveSpot_success (store : EventStore) (path : String) (id : Int)
    (names : List String) (hp : Atoi path = some id) (he : EventCheckPasses store id) :
    ((ReserveSpot store path (some names)).1 = reservedOk ↔
      ∀ n ∈ names, SpotExists store id n ∧ ¬ SpotReserved store id n) ∧
    ((ReserveSpot store path (some names)).1.statusCode = StatusCreated →
      (ReserveSpot store path (some names)).1 = reservedOk ∧
      ∀ s ∈ (ReserveSpot store path (some names)).2.Spots,
        s.EventID = id → s.Name ∈ names → s.Status = "reserved") := by
  have hiff := ReserveSpot_created_iff store path id names hp
  constructor
  · constructor
    · intro h
      have hc : (ReserveSpot store path (some names)).1.statusCode = StatusCreated := by
        rw [h]; rfl
      have := hiff.mp hc
      exact fun n hn => ⟨this.2.1 n hn, this.2.2 n hn⟩
    · intro h
      have hc := hiff.mpr ⟨he, fun n hn => (h n hn).1, fun n hn => (h n hn).2⟩
      rw [ReserveSpot_created_store store path id names hp hc]
  · intro hc
    rw [ReserveSpot_created_store store path id names hp hc]
    refine ⟨rfl, ?_⟩
    intro s hs h1 h2
    simp only [List.mem_map] at hs
    rcases hs with ⟨t, _, rfl⟩
    rw [markAll_EventID] at h1
    rw [markAll_Name] at h2
    exact markAll_of_mem _ _ _ h1 h2

/-- Witness of C5 amended: `A1` and `B1` are available spots of event 1. -/
theorem ReserveSpot_success_witness :
    (ReserveSpot demoStore "1" (some ["A1", "B1"])).1 = reservedOk ∧
    (∀ n ∈ ["A1", "B1"], SpotExists demoStore 1 n ∧ ¬ SpotReserved demoStore 1 n) ∧
    (∀ s ∈ (ReserveSpot demoStore "1" (some ["A1", "B1"])).2.Spots,
        s.EventID = 1 → s.Name ∈ ["A1", "B1"] → s.Status = "reserved") :=
  ⟨by decide, by decide,
    ((ReserveSpot_success demoStore "1" 1 ["A1", "B1"] (by decide) (by decide)).2
      (by decide)).2⟩

/-- C6, existence is checked before availability: when the path value parses
to an event id whose event check passes and the batch holds a name missing
under the event and a name of a reserved spot, `ReserveSpot` answers the 404
`... not found` failure listing the missing names, not a 400, the store is
unchanged, and no name of a reserved spot is among the reported names. -/
theorem ReserveSpot_existence_first (store : EventStore) (path : String) (id : Int)
    (names : List String) (hp : Atoi path = some id) (he : EventCheckPasses store id)
    (hmiss : ∃ n ∈ names, ¬ SpotExists store id n)
    (_htaken : ∃ n ∈ names, SpotReserved store id n) :
    ReserveSpot store path (some names) =
      (writeResponse ("Spot " ++ Join (missingNames store id names) ", " ++ " not found")
        StatusNotFound, store) ∧
    (ReserveSpot store path (some names)).1.statusCode ≠ StatusBadRequest ∧
    (∀ n, SpotReserved store id n → n ∉ missingNames store id names) := by
  have hm : missingNames store id names ≠ [] := by
    intro h
    rcases hmiss with ⟨n, hn, hne⟩
    exact hne ((missingNames_eq_nil_iff _ _ _).mp h n hn)
  have hr : ReserveSpot store path (some names) =
      (writeResponse ("Spot " ++ Join (missingNames store id names) ", " ++ " not found")
        StatusNotFound, store) := by
    rw [ReserveSpot_unfold store path id names hp, if_neg he, if_pos hm]
  refine ⟨hr, ?_, ?_⟩
  · rw [hr]
    intro h
    have h2 : StatusNotFound = StatusBadRequest := h
    exact absurd h2 (by decide)
  · intro n hres hin
    unfold missingNames at hin
    rw [List.mem_filter, decide_eq_true_iff] at hin
    rcases hres with ⟨s, hs, h1, h2, _⟩
    exact hin.2 ⟨s, hs, h1, h2⟩

/-- Witness of C6: `A2` is reserved and `Z9` is missing under event 1; only
`Z9` is reported. -/
theorem ReserveSpot_existence_first_witness :
    ReserveSpot demoStore "1" (some ["A2", "Z9"]) =
      (writeResponse "Spot Z9 not found" 404, demoStore) :=
  (ReserveSpot_existence_first demoStore "1" 1 ["A2", "Z9"]
    (by decide) (by decide) (by decide) (by decide)).1

/-- C7, unknown event: when the path value parses to an id that no event in
the store has, `ReserveSpot` answers 404 `Event not found` and leaves the store
unchanged, whatever names the body holds. -/
theorem ReserveSpot_unknown_event (store : EventStore) (path : String) (id : Int)
    (names : List String) (hp : Atoi path = some id)
    (habs : ∀ e ∈ store.Events, e.ID ≠ id) :
    ReserveSpot store path (some names) =
      (writeResponse "Event not found" StatusNotFound, store) := by
  rw [ReserveSpot_unfold store path id names hp, if_pos (findEvent_absent _ _ habs)]
  rfl

/-- Witness of C7: no event has id 99, while `A1` exists under other events. -/
theorem ReserveSpot_unknown_event_witness :
    (∀ e ∈ demoStore.Events, e.ID ≠ 99) ∧
    ReserveSpot demoStore "99" (some ["A1"]) =
      (writeResponse "Event not found" 404, demoStore) :=
  ⟨by decide, ReserveSpot_unknown_event demoStore "99" 99 ["A1"] (by decide) (by decide)⟩

/-! ## Claims about all four operations -/

theorem handle_spot_at (store : EventStore) (c : Call) (i : Nat) (s : Spot)
    (hs : store.Spots[i]? = some s) :
    ∃ t, (handle store c).2.Spots[i]? = some t ∧ t.ID = s.ID ∧ t.Name = s.Name ∧
      t.EventID = s.EventID ∧ (s.Status = "reserved" → t.Status = "reserved") := by
  rcases handle_store_cases store c with h0 | ⟨id, names, h0⟩
  · rw [h0]; exact ⟨s, hs, rfl, rfl, rfl, fun h => h⟩
  · rw [h0]
    refine ⟨markAll id names s, ?_, markAll_ID _ _ _, markAll_Name _ _ _,
      markAll_EventID _ _ _, markAll_reserved _ _ _⟩
    simp only [List.getElem?_map, hs, Option.map_some']

theorem runCalls_spot_at (calls : List Call) (store : EventStore) (i : Nat) (s : Spot)
    (hs : store.Spots[i]? = some s) :
    ∃ t, (runCalls store calls).Spots[i]? = some t ∧ t.ID = s.ID ∧ t.Name = s.Name ∧
      t.EventID = s.EventID ∧ (s.Status = "reserved" → t.Status = "reserved") := by
  induction calls generalizing store s with
  | nil => exact ⟨s, hs, rfl, rfl, rfl, fun h => h⟩
  | cons c cs ih =>
    rcases handle_spot_at store c i s hs with ⟨t, ht, h1, h2, h3, h4⟩
    rcases ih (handle store c).2 t ht with ⟨u, hu, g1, g2, g3, g4⟩
    refine ⟨u, ?_, g1.trans h1, g2.trans h2, g3.trans h3, fun h => g4 (h4 h)⟩
    unfold runCalls
    rw [List.foldl_cons]
    exact hu

/-- C8, one-way transition: a spot at position `i` of the store whose status is
`reserved` is, after any single call of `ListEvents`, `GetEvent`, `ListSpots`
or `ReserveSpot` with any input, and after any sequence of such calls, still
at position `i`, the same spot by id, name and event, with status
`reserved`. -/
theorem reserved_stays_reserved (store : EventStore) (i : Nat) (s : Spot)
    (hs : store.Spots[i]? = some s) (hr : s.Status = "reserved") :
    (∀ c : Call, ∃ t, (handle store c).2.Spots[i]? = some t ∧ t.Status = "reserved" ∧
      t.ID = s.ID ∧ t.Name = s.Name ∧ t.EventID = s.EventID) ∧
    (∀ calls : List Call, ∃ t, (runCalls store calls).Spots[i]? = some t ∧
      t.Status = "reserved" ∧ t.ID = s.ID ∧ t.Name = s.Name ∧ t.EventID = s.EventID) := by
  constructor
  · intro c
    rcases handle_spot_at store c i s hs with ⟨t, ht, h1, h2, h3, h4⟩
    exact ⟨t, ht, h4 hr, h1, h2, h3⟩
  · intro calls
    rcases runCalls_spot_at calls store i s hs with ⟨t, ht, h1, h2, h3, h4⟩
    exact ⟨t, ht, h4 hr, h1, h2, h3⟩

/-- Witness of C8: the spot `A2` at position 1 of the scenario store is
reserved. -/
theorem reserved_stays_reserved_witness :
    demoStore.Spots[1]? = some ⟨2, "A2", "reserved", 1⟩ ∧
    (∀ c : Call, ∃ t, (handle demoStore c).2.Spots[1]? = some t ∧ t.Status = "reserved" ∧
      t.ID = 2 ∧ t.Name = "A2" ∧ t.EventID = 1) ∧
    (∀ calls : List Call, ∃ t, (runCalls demoStore calls).Spots[1]? = some t ∧
      t.Status = "reserved" ∧ t.ID = 2 ∧ t.Name = "A2" ∧ t.EventID = 1) :=
  ⟨by decide, reserved_stays_reserved demoStore 1 ⟨2, "A2", "reserved", 1⟩ (by decide) rfl⟩

/-- C9, only named spots of the requested event change: for a path value that
parses to `id` and a spot `s` at position `i` before the call, the store after
`ReserveSpot` has the same number of spots and at position `i` a spot `t` with
the id, name and event of `s`; if the status of `t` differs from that of `s`
then `s` belongs to event `id`, its name is requested, the new status is
`reserved` and the answer is 201; and if `s` belongs to another event then
`t` is `s`, whether or not it bears a requested name. -/
theorem ReserveSpot_changes_only_named (store : EventStore) (path : String) (id : Int)
    (names : List String) (i : Nat) (s : Spot) (hp : Atoi path = some id)
    (hs : store.Spots[i]? = some s) :
    (ReserveSpot store path (some names)).2.Spots.length = store.Spots.length ∧
    ∃ t, (ReserveSpot store path (some names)).2.Spots[i]? = some t ∧
      t.ID = s.ID ∧ t.Name = s.Name ∧ t.EventID = s.EventID ∧
      (t.Status ≠ s.Status →
        s.EventID = id ∧ s.Name ∈ names ∧ t.Status = "reserved" ∧
          (ReserveSpot store path (some names)).1 = reservedOk) ∧
      (s.EventID ≠ id → t = s) := by
  rcases ReserveSpot_store_cases store path (some names) with
    h | ⟨id2, names2, hp2, hb, _, _, _, h⟩
  · rw [h]
    exact ⟨rfl, s, hs, rfl, rfl, rfl, fun hne => absurd rfl hne, fun _ => rfl⟩
  · have hid : id2 = id := by
      rw [hp] at hp2; exact (Option.some.inj hp2).symm
    have hn : names2 = names := (Option.some.inj hb).symm
    subst hid; subst hn
    rw [h]
    refine ⟨by simp, markAll id2 names2 s, ?_, markAll_ID _ _ _, markAll_Name _ _ _,
      markAll_EventID _ _ _, ?_, ?_⟩
    · simp only [List.getElem?_map, hs, Option.map_some']
    · intro hne
      by_cases hc : s.EventID = id2 ∧ s.Name ∈ names2
      · exact ⟨hc.1, hc.2, markAll_of_mem _ _ _ hc.1 hc.2, rfl⟩
      · rw [markAll_of_not _ _ _ hc] at hne
        exact absurd rfl hne
    · intro hne
      exact markAll_of_not _ _ _ (fun hc => hne hc.1)

/-- Witness of C9: reserving `A1` of event 1 turns the spot at position 0 to
`reserved`, and the spot `A1` of event 2 at position 3 is as before. -/
theorem ReserveSpot_changes_only_named_witness :
    (ReserveSpot demoStore "1" (some ["A1"])).2.Spots[0]? = some ⟨1, "A1", "reserved", 1⟩ ∧
    (ReserveSpot demoStore "1" (some ["A1"])).2.Spots[3]? = demoStore.Spots[3]? ∧
    ((ReserveSpot demoStore "1" (some ["A1"])).2.Spots.length = demoStore.Spots.length ∧
      ∃ t, (ReserveSpot demoStore "1" (some ["A1"])).2.Spots[3]? = some t ∧
        t.ID = 4 ∧ t.Name = "A1" ∧ t.EventID = 2 ∧
        (t.Status ≠ "available" →
          (2 : Int) = 1 ∧ "A1" ∈ ["A1"] ∧ t.Status = "reserved" ∧
            (ReserveSpot demoStore "1" (some ["A1"])).1 = reservedOk) ∧
        ((2 : Int) ≠ 1 → t = ⟨4, "A1", "available", 2⟩)) :=
  ⟨by decide, by decide,
    ReserveSpot_changes_only_named demoStore "1" 1 ["A1"] 3 ⟨4, "A1", "available", 2⟩
      (by decide) (by decide)⟩

theorem collectSpots_foldl (spots : List Spot) (eventID : Int) (acc : List Spot) :
    spots.foldl (fun acc spot => if spot.EventID = eventID then acc ++ [spot] else acc) acc
      = acc ++ spots.filter (fun s => decide (s.EventID = eventID)) := by
  induction spots generalizing acc with
  | nil => simp
  | cons s rest ih =>
    rw [List.foldl_cons, ih, List.filter_cons]
    by_cases h : s.EventID = eventID
    · simp [h]
    · simp [h]

/-- C10, `ListSpots` is scoped to one event: for a path value that parses to
`id`, whenever `ListSpots` answers with a list of spots, the list is the
store's spots whose `EventID` equals `id`, in load order with nothing dropped
or added, so every listed spot belongs to event `id`; the status is 200 and
the store is unchanged. -/
theorem ListSpots_scoped (store : EventStore) (path : String) (id : Int) (l : List Spot)
    (hp : Atoi path = some id) (hl : (ListSpots store path).1.body = Body.spots l) :
    l = store.Spots.filter (fun s => decide (s.EventID = id)) ∧
    (∀ s ∈ l, s.EventID = id) ∧
    ListSpots store path = (⟨StatusOK, Body.spots l⟩, store) := by
  have hne := Atoi_ne_empty path id hp
  unfold ListSpots at hl ⊢
  rw [if_neg hne, hp] at hl ⊢
  simp only [] at hl ⊢
  by_cases he : findEvent store.Events id = Event.zero
  · rw [if_pos he] at hl
    exact Body.noConfusion hl
  · rw [if_neg he] at hl ⊢
    rw [findEvent_ID _ _ he] at hl ⊢
    have hl2 : collectSpots store.Spots id = l := Body.spots.inj hl
    have hf : l = store.Spots.filter (fun s => decide (s.EventID = id)) := by
      rw [← hl2]; unfold collectSpots
      rw [collectSpots_foldl, List.nil_append]
    refine ⟨hf, ?_, by rw [hl2]⟩
    intro s hs
    rw [hf, List.mem_filter, decide_eq_true_iff] at hs
    exact hs.2

/-- Witness of C10: event 1 of the scenario store has the spots `A1`, `A2` and
`B1`; the spot `A1` of event 2 is not listed. -/
theorem ListSpots_scoped_witness :
    ListSpots demoStore "1" =
      (⟨200, Body.spots [⟨1, "A1", "available", 1⟩, ⟨2, "A2", "reserved", 1⟩,
        ⟨3, "B1", "available", 1⟩]⟩, demoStore) :=
  (ListSpots_scoped demoStore "1" 1
    [⟨1, "A1", "available", 1⟩, ⟨2, "A2", "reserved", 1⟩, ⟨3, "B1", "available", 1⟩]
    (by decide) (by decide)).2.2

/-! ## Claims about the lookup by id -/

theorem findEvent_eq_firstEvent (store : EventStore) (id : Int) :
    findEvent store.Events id = (firstEvent store id).getD Event.zero := by
  unfold firstEvent
  induction store.Events with
  | nil => rfl
  | cons e es ih =>
    unfold findEvent
    rw [List.find?_cons]
    by_cases h : e.ID = id
    · simp [h]
    · simp [h, ih]

theorem firstEvent_eq_none_iff (store : EventStore) (id : Int) :
    firstEvent store id = none ↔ ∀ e ∈ store.Events, e.ID ≠ id := by
  unfold firstEvent
  rw [List.find?_eq_none]
  simp

theorem GetEvent_unfold (store : EventStore) (path : String) (id : Int)
    (hp : Atoi path = some id) :
    GetEvent store path =
      if findEvent store.Events id = Event.zero then (eventNotFound, store)
      else (⟨StatusOK, Body.event (findEvent store.Events id)⟩, store) := by
  unfold GetEvent
  rw [if_neg (Atoi_ne_empty path id hp), hp]
  rfl

theorem ListSpots_unfold (store : EventStore) (path : String) (id : Int)
    (hp : Atoi path = some id) :
    ListSpots store path =
      if findEvent store.Events id = Event.zero then (eventNotFound, store)
      else (⟨StatusOK, Body.spots (collectSpots store.Spots (findEvent store.Events id).ID)⟩,
        store) := by
  unfold ListSpots
  rw [if_neg (Atoi_ne_empty path id hp), hp]
  rfl

/-- C11 as stated fails: `zeroEventStore` holds an event with id 0, so the
claim has `GetEvent` answer with the first event of id 0, yet the handler
answers 404 `Event not found`, because that event equals `Event{}`. -/
theorem GetEvent_by_id_counterexample :
    ¬ (∀ (store : EventStore) (path : String) (id : Int), Atoi path = some id →
        ((∀ e ∈ store.Events, e.ID ≠ id) → (GetEvent store path).1 = eventNotFound) ∧
        (¬ (∀ e ∈ store.Events, e.ID ≠ id) →
          ∃ e, firstEvent store id = some e ∧
            (GetEvent store path).1 = ⟨StatusOK, Body.event e⟩)) := by
  intro h
  rcases (h zeroEventStore "0" 0 (by decide)).2 (by decide) with ⟨e, _, he⟩
  have h1 : (GetEvent zeroEventStore "0").1.statusCode = 404 := by decide
  rw [he] at h1
  have h2 : StatusOK = 404 := h1
  exact absurd h2 (by decide)

/-- C11 amended, `GetEvent` by id: when the path value parses to `id`,
`GetEvent` answers 404 `Event not found` if no event in the store has that id
or the first event in load order with that id is the all-zero record, and
otherwise answers 200 with the first event in load order whose id is `id`; the
store is unchanged. -/
theorem GetEvent_by_id (store : EventStore) (path : String) (id : Int)
    (hp : Atoi path = some id) :
    ((∀ e ∈ store.Events, e.ID ≠ id) → GetEvent store path = (eventNotFound, store)) ∧
    (firstEvent store id = some Event.zero → GetEvent store path = (eventNotFound, store)) ∧
    (∀ e, firstEvent store id = some e → e ≠ Event.zero →
      GetEvent store path = (⟨StatusOK, Body.event e⟩, store)) := by
  rw [GetEvent_unfold store path id hp, findEvent_eq_firstEvent]
  refine ⟨?_, ?_, ?_⟩
  · intro h
    rw [(firstEvent_eq_none_iff store id).mpr h]
    rfl
  · intro h
    rw [h]
    rfl
  · intro e h hne
    rw [h]
    simp only [Option.getD_some]
    rw [if_neg hne]

/-- Witness of C11 amended: event 2 is the second event of the scenario store,
and no event has id 7. -/
theorem GetEvent_by_id_witness :
    GetEvent demoStore "2" =
      (⟨200, Body.event ⟨2, "Fair", "Org", "2024-02-01", 5, "L", "img", "2023-12-02", "Park"⟩⟩,
        demoStore) ∧
    GetEvent demoStore "7" = (eventNotFound, demoStore) :=
  ⟨(GetEvent_by_id demoStore "2" 2 (by decide)).2.2 _ (by decide) (by decide),
   (GetEvent_by_id demoStore "7" 7 (by decide)).1 (by decide)⟩

/-! ## Claims about repeated names -/

theorem mem_removeRepeats (names : List String) (m : String) :
    m ∈ removeRepeats names ↔ m ∈ names := by
  induction names with
  | nil => simp [removeRepeats]
  | cons n ns ih =>
    unfold removeRepeats
    rw [List.mem_cons, List.mem_cons, List.mem_filter, ih]
    by_cases h : m = n
    · simp [h]
    · simp [h]

theorem ReserveSpot_summary (store : EventStore) (path : String) (id : Int)
    (names : List String) (hp : Atoi path = some id) :
    (ReserveSpot store path (some names)).1.statusCode =
      (if findEvent store.Events id = Event.zero then StatusNotFound
       else if ¬ (∀ n ∈ names, SpotExists store id n) then StatusNotFound
       else if ¬ (∀ n ∈ names, ¬ SpotReserved store id n) then StatusBadRequest
       else StatusCreated) ∧
    (ReserveSpot store path (some names)).2 =
      (if findEvent store.Events id = Event.zero then store
       else if ¬ (∀ n ∈ names, SpotExists store id n) then store
       else if ¬ (∀ n ∈ names, ¬ SpotReserved store id n) then store
       else { store with Spots := store.Spots.map (markAll id names) }) := by
  rw [ReserveSpot_unfold store path id names hp]
  by_cases he : findEvent store.Events id = Event.zero
  · simp only [if_pos he]
    refine ⟨?_, ?_⟩ <;> first | rfl | trivial
  · simp only [if_neg he]
    by_cases hm : missingNames store id names = []
    · have hm1 : ¬ missingNames store id names ≠ [] := fun h => h hm
      have hm2 : ¬ ¬ (∀ n ∈ names, SpotExists store id n) :=
        fun h => h ((missingNames_eq_nil_iff store id names).mp hm)
      simp only [if_neg hm1, if_neg hm2]
      by_cases ht : reservedSpots store.Spots id names = []
      · have ht1 : ¬ reservedSpots store.Spots id names ≠ [] := fun h => h ht
        have ht2 : ¬ ¬ (∀ n ∈ names, ¬ SpotReserved store id n) :=
          fun h => h ((reservedSpots_eq_nil_iff store id names).mp ht)
        simp only [if_neg ht1, if_neg ht2]
        refine ⟨?_, ?_⟩ <;> first | rfl | trivial
      · have ht1 : reservedSpots store.Spots id names ≠ [] := ht
        have ht2 : ¬ (∀ n ∈ names, ¬ SpotReserved store id n) :=
          fun h => ht ((reservedSpots_eq_nil_iff store id names).mpr h)
        simp only [if_pos ht1, if_pos ht2]
        refine ⟨?_, ?_⟩ <;> first | rfl | trivial
    · have hm1 : missingNames store id names ≠ [] := hm
      have hm2 : ¬ (∀ n ∈ names, SpotExists store id n) :=
        fun h => hm ((missingNames_eq_nil_iff store id names).mpr h)
      simp only [if_pos hm1, if_pos hm2]
      refine ⟨?_, ?_⟩ <;> first | rfl | trivial

theorem markAll_congr_mem (id : Int) (names names2 : List String)
    (hmem : ∀ n, n ∈ names2 ↔ n ∈ names) : markAll id names2 = markAll id names := by
  funext s
  unfold markAll
  by_cases h : s.EventID = id ∧ s.Name ∈ names
  · rw [if_pos h, if_pos ⟨h.1, (hmem _).mpr h.2⟩]
  · rw [if_neg h, if_neg (fun hx => h ⟨hx.1, (hmem _).mp hx.2⟩)]

theorem ReserveSpot_congr_mem (store : EventStore) (path : String)
    (names names2 : List String) (hmem : ∀ n, n ∈ names2 ↔ n ∈ names) :
    (ReserveSpot store path (some names)).1.statusCode =
      (ReserveSpot store path (some names2)).1.statusCode ∧
    (ReserveSpot store path (some names)).2 = (ReserveSpot store path (some names2)).2 := by
  by_cases hempty : path = ""
  · unfold ReserveSpot
    rw [if_pos hempty, if_pos hempty]
    exact ⟨rfl, rfl⟩
  · cases hp : Atoi path with
    | none =>
      unfold ReserveSpot
      rw [if_neg hempty, if_neg hempty, hp]
      exact ⟨rfl, rfl⟩
    | some id =>
      have h1 := ReserveSpot_summary store path id names hp
      have h2 := ReserveSpot_summary store path id names2 hp
      have e1 : (∀ n ∈ names2, SpotExists store id n) ↔ (∀ n ∈ names, SpotExists store id n) :=
        ⟨fun h n hn => h n ((hmem n).mpr hn), fun h n hn => h n ((hmem n).mp hn)⟩
      have e2 : (∀ n ∈ names2, ¬ SpotReserved store id n) ↔
          (∀ n ∈ names, ¬ SpotReserved store id n) :=
        ⟨fun h n hn => h n ((hmem n).mpr hn), fun h n hn => h n ((hmem n).mp hn)⟩
      rw [h1.1, h1.2, h2.1, h2.2, markAll_congr_mem id names names2 hmem]
      simp only [e1, e2]
      exact ⟨trivial, trivial⟩

/-- C12, duplicate names are a harmless repeat: for every store, path value
and list of names, `ReserveSpot` on the list and `ReserveSpot` on the list
with every later repeat of a name removed give the same status code and the
same store afterwards. -/
theorem ReserveSpot_duplicates_harmless (store : EventStore) (path : String)
    (names : List String) :
    (ReserveSpot store path (some names)).1.statusCode =
      (ReserveSpot store path (some (removeRepeats names))).1.statusCode ∧
    (ReserveSpot store path (some names)).2 =
      (ReserveSpot store path (some (removeRepeats names))).2 :=
  ReserveSpot_congr_mem store path names (removeRepeats names) (mem_removeRepeats names)

/-- Witness of C12: `A1, B1, A1, B1, A1` shrinks to `A1, B1`; both batches are
accepted and reserve the same two spots, and with the missing `Z9` repeated
both are refused with 404 while the messages differ. -/
theorem ReserveSpot_duplicates_harmless_witness :
    removeRepeats ["A1", "B1", "A1", "B1", "A1"] = ["A1", "B1"] ∧
    (ReserveSpot demoStore "1" (some ["A1", "B1", "A1", "B1", "A1"])).1.statusCode = 201 ∧
    (ReserveSpot demoStore "1" (some ["Z9", "Z9"])).1 ≠
      (ReserveSpot demoStore "1" (some (removeRepeats ["Z9", "Z9"]))).1 ∧
    ((ReserveSpot demoStore "1" (some ["A1", "B1", "A1", "B1", "A1"])).1.statusCode =
      (ReserveSpot demoStore "1"
        (some (removeRepeats ["A1", "B1", "A1", "B1", "A1"]))).1.statusCode ∧
    (ReserveSpot demoStore "1" (some ["A1", "B1", "A1", "B1", "A1"])).2 =
      (ReserveSpot demoStore "1" (some (removeRepeats ["A1", "B1", "A1", "B1", "A1"]))).2) :=
  ⟨by decide, by decide, by decide,
    ReserveSpot_duplicates_harmless demoStore "1" ["A1", "B1", "A1", "B1", "A1"]⟩

/-! ## Claims about malformed and unknown ids -/

/-- C13 as stated fails at two inputs: the empty path value does not parse as
an integer and the three handlers answer 400 `Event ID is required`, not
`Invalid event ID`; and `ReserveSpot` with the id 99, which parses and matches
no event, answers 400 for a body that does not decode, not 404. -/
theorem malformed_id_counterexample :
    ¬ (∀ (store : EventStore) (path : String) (body : Option (List String)),
        Atoi path = none →
        GetEvent store path = (writeResponse "Invalid event ID" StatusBadRequest, store) ∧
        ListSpots store path = (writeResponse "Invalid event ID" StatusBadRequest, store) ∧
        ReserveSpot store path body =
          (writeResponse "Invalid event ID" StatusBadRequest, store)) ∧
    ¬ (∀ (store : EventStore) (path : String) (id : Int) (body : Option (List String)),
        Atoi path = some id → (∀ e ∈ store.Events, e.ID ≠ id) →
        ReserveSpot store path body = (eventNotFound, store)) := by
  constructor
  · intro h
    have h1 := (h demoStore "" none (by decide)).1
    exact absurd h1 (by decide)
  · intro h
    have h1 := h demoStore "99" 99 none (by decide) (by decide)
    exact absurd h1 (by decide)

/-- C13 amended, a malformed id is distinguishable from an unknown id: for a
non-empty path value that does not parse as an integer, `GetEvent`,
`ListSpots` and `ReserveSpot` (whatever the body) answer 400
`Invalid event ID`, which is not the 404 answer, and leave the store
unchanged; for the empty path value they answer 400 `Event ID is required`;
and for a path value that parses to an id no event has, `GetEvent`,
`ListSpots` and `ReserveSpot` with a body that decodes answer 404
`Event not found`. -/
theorem malformed_id_distinct (store : EventStore) (path : String)
    (body : Option (List String)) (hne : path ≠ "") (hbad : Atoi path = none) :
    (GetEvent store path = (writeResponse "Invalid event ID" StatusBadRequest, store) ∧
     ListSpots store path = (writeResponse "Invalid event ID" StatusBadRequest, store) ∧
     ReserveSpot store path body =
       (writeResponse "Invalid event ID" StatusBadRequest, store)) ∧
    (writeResponse "Invalid event ID" StatusBadRequest).statusCode ≠ StatusNotFound ∧
    (GetEvent store "" = (writeResponse "Event ID is required" StatusBadRequest, store) ∧
     ListSpots store "" = (writeResponse "Event ID is required" StatusBadRequest, store) ∧
     ReserveSpot store "" body =
       (writeResponse "Event ID is required" StatusBadRequest, store)) ∧
    (∀ (path2 : String) (id : Int) (names : List String), Atoi path2 = some id →
      (∀ e ∈ store.Events, e.ID ≠ id) →
      GetEvent store path2 = (eventNotFound, store) ∧
      ListSpots store path2 = (eventNotFound, store) ∧
      ReserveSpot store path2 (some names) = (eventNotFound, store)) := by
  refine ⟨⟨?_, ?_, ?_⟩, by decide, ⟨rfl, rfl, rfl⟩, ?_⟩
  · unfold GetEvent; rw [if_neg hne, hbad]
  · unfold ListSpots; rw [if_neg hne, hbad]
  · unfold ReserveSpot; rw [if_neg hne, hbad]
  · intro path2 id names hp habs
    have hz := findEvent_absent store.Events id habs
    refine ⟨?_, ?_, ?_⟩
    · rw [GetEvent_unfold store path2 id hp, if_pos hz]
    · rw [ListSpots_unfold store path2 id hp, if_pos hz]
    · rw [ReserveSpot_unfold store path2 id names hp, if_pos hz]

/-- Witness of C13 amended: `12a` is not an integer, and 99 is an integer that
no event of the scenario store has. -/
theorem malformed_id_distinct_witness :
    "12a" ≠ "" ∧ Atoi "12a" = none ∧
    GetEvent demoStore "12a" = (writeResponse "Invalid event ID" 400, demoStore) ∧
    ListSpots demoStore "12a" = (writeResponse "Invalid event ID" 400, demoStore) ∧
    ReserveSpot demoStore "12a" (some ["A1"]) =
      (writeResponse "Invalid event ID" 400, demoStore) ∧
    GetEvent demoStore "99" = (writeResponse "Event not found" 404, demoStore) :=
  ⟨by decide, by decide,
    (malformed_id_distinct demoStore "12a" (some ["A1"]) (by decide) (by decide)).1.1,
    (malformed_id_distinct demoStore "12a" (some ["A1"]) (by decide) (by decide)).1.2.1,
    (malformed_id_distinct demoStore "12a" (some ["A1"]) (by decide) (by decide)).1.2.2,
    ((malformed_id_distinct demoStore "12a" (some ["A1"]) (by decide) (by decide)).2.2.2
      "99" 99 [] (by decide) (by decide)).1⟩

/-! ## Claims about the status written by the commit pass -/

/-- C15 as stated fails: in `blockedStore` the spot `A1` of event 1 has the
status `blocked`, which is not `available`, and `ReserveSpot` for `A1` moves it
to `reserved`. -/
theorem status_change_counterexample :
    ¬ (∀ (store : EventStore) (path : String) (id : Int) (names : List String) (i : Nat)
        (s t : Spot), Atoi path = some id → store.Spots[i]? = some s →
        (ReserveSpot store path (some names)).2.Spots[i]? = some t →
        t.Status ≠ s.Status → s.Status = "available" ∧ t.Status = "reserved") := by
  intro h
  have h1 := h blockedStore "1" 1 ["A1"] 0 ⟨1, "A1", "blocked", 1⟩ ⟨1, "A1", "reserved", 1⟩
    (by decide) (by decide) (by decide) (by decide)
  exact absurd h1.1 (by decide)

/-- C15 amended, every status change ends in `reserved` and starts from a
status other than `reserved`: for a path value that parses to `id`, when the
spot at position `i` is `s` before `ReserveSpot` and `t` after it and their
statuses differ, the status of `s` is not `reserved` and the status of `t` is
`reserved`; and in a store all of whose statuses are `available` or `reserved`
the status of `s` is `available`. -/
theorem status_change_to_reserved (store : EventStore) (path : String) (id : Int)
    (names : List String) (i : Nat) (s t : Spot) (hp : Atoi path = some id)
    (hs : store.Spots[i]? = some s)
    (ht : (ReserveSpot store path (some names)).2.Spots[i]? = some t)
    (hchg : t.Status ≠ s.Status) :
    s.Status ≠ "reserved" ∧ t.Status = "reserved" ∧
    (StatusesKnown store → s.Status = "available") := by
  have hmem : s ∈ store.Spots := List.mem_iff_getElem?.mpr ⟨i, hs⟩
  rcases ReserveSpot_store_cases store path (some names) with
    h | ⟨id2, names2, hp2, hb, _, _, hres, h⟩
  · rw [h, hs] at ht
    exact absurd (congrArg Spot.Status (Option.some.inj ht)).symm hchg
  · have hid : id2 = id := by
      rw [hp] at hp2; exact (Option.some.inj hp2).symm
    have hn : names2 = names := (Option.some.inj hb).symm
    subst hid; subst hn
    rw [h] at ht
    simp only [List.getElem?_map, hs, Option.map_some'] at ht
    have htm : t = markAll id2 names2 s := (Option.some.inj ht).symm
    subst htm
    by_cases hc : s.EventID = id2 ∧ s.Name ∈ names2
    · have hnot : s.Status ≠ "reserved" := fun hr =>
        hres s.Name hc.2 ⟨s, hmem, hc.1, rfl, hr⟩
      refine ⟨hnot, markAll_of_mem _ _ _ hc.1 hc.2, ?_⟩
      intro hk
      rcases hk s hmem with ha | hr
      · exact ha
      · exact absurd hr hnot
    · rw [markAll_of_not _ _ _ hc] at hchg
      exact absurd rfl hchg

/-- Witness of C15 amended: in the scenario store reserving `A1` of event 1
changes the spot at position 0 from `available` to `reserved`. -/
theorem status_change_to_reserved_witness :
    StatusesKnown demoStore ∧
    ((⟨1, "A1", "available", 1⟩ : Spot).Status ≠ "reserved" ∧
     (⟨1, "A1", "reserved", 1⟩ : Spot).Status = "reserved" ∧
     (StatusesKnown demoStore → (⟨1, "A1", "available", 1⟩ : Spot).Status = "available")) :=
  ⟨by decide,
    status_change_to_reserved demoStore "1" 1 ["A1"] 0 ⟨1, "A1", "available", 1⟩
      ⟨1, "A1", "reserved", 1⟩ (by decide) (by decide) (by decide) (by decide)⟩

/-! ## Claims about the zero-valued event -/

/-- C16 as stated fails: the first event of `zeroEventStore` with id 0 is the
all-zero record and the path value `0` parses to 0, yet `ReserveSpot` with a
body that does not decode answers 400 for the invalid body, not 404
`Event not found`, because the body is decoded before the event is looked
up. -/
theorem zero_event_absent_counterexample :
    ¬ (∀ (store : EventStore) (path : String) (body : Option (List String)),
        Atoi path = some 0 → firstEvent store 0 = some Event.zero →
        GetEvent store path = (writeResponse "Event not found" StatusNotFound, store) ∧
        ListSpots store path = (writeResponse "Event not found" StatusNotFound, store) ∧
        ReserveSpot store path body =
          (writeResponse "Event not found" StatusNotFound, store)) := by
  intro h
  have h1 := (h zeroEventStore "0" none (by decide) (by decide)).2.2
  exact absurd h1 (by decide)

/-- C16 amended, a zero-valued event is treated as absent: when the first
event of the store with id 0 is the all-zero record and the path value parses
to 0, `GetEvent`, `ListSpots`, and `ReserveSpot` with a body that decodes to a
list of names, all answer 404 `Event not found` and leave the store unchanged,
although an event with id 0 is loaded; `ReserveSpot` with a body that does
not decode answers 400 for the invalid body and leaves the store unchanged. -/
theorem zero_event_absent (store : EventStore) (path : String) (names : List String)
    (hp : Atoi path = some 0) (hz : firstEvent store 0 = some Event.zero) :
    GetEvent store path = (writeResponse "Event not found" StatusNotFound, store) ∧
    ListSpots store path = (writeResponse "Event not found" StatusNotFound, store) ∧
    ReserveSpot store path (some names) =
      (writeResponse "Event not found" StatusNotFound, store) ∧
    (∃ e ∈ store.Events, e.ID = 0) ∧
    ReserveSpot store path none =
      (writeResponse
        "Invalid request body. Expected an array of strings with the spot names"
        StatusBadRequest, store) := by
  have hf : findEvent store.Events 0 = Event.zero := by
    rw [findEvent_eq_firstEvent, hz]; rfl
  refine ⟨?_, ?_, ?_, ?_, ?_⟩
  · rw [GetEvent_unfold store path 0 hp, if_pos hf]; rfl
  · rw [ListSpots_unfold store path 0 hp, if_pos hf]; rfl
  · rw [ReserveSpot_unfold store path 0 names hp, if_pos hf]; rfl
  · unfold firstEvent at hz
    exact ⟨Event.zero, List.mem_of_find?_eq_some hz, rfl⟩
  · unfold ReserveSpot
    rw [if_neg (Atoi_ne_empty path 0 hp), hp]

/-- Witness of C16 amended: the only event of `zeroEventStore` is the all-zero
record, and its available spot `A1` can be neither listed nor reserved. -/
theorem zero_event_absent_witness :
    firstEvent zeroEventStore 0 = some Event.zero ∧
    SpotExists zeroEventStore 0 "A1" ∧ ¬ SpotReserved zeroEventStore 0 "A1" ∧
    (GetEvent zeroEventStore "0" = (writeResponse "Event not found" 404, zeroEventStore) ∧
     ListSpots zeroEventStore "0" = (writeResponse "Event not found" 404, zeroEventStore) ∧
     ReserveSpot zeroEventStore "0" (some ["A1"]) =
       (writeResponse "Event not found" 404, zeroEventStore) ∧
     (∃ e ∈ zeroEventStore.Events, e.ID = 0) ∧
     ReserveSpot zeroEventStore "0" none =
       (writeResponse
         "Invalid request body. Expected an array of strings with the spot names"
         400, zeroEventStore)) :=
  ⟨by decide, by decide, by decide,
    zero_event_absent zeroEventStore "0" ["A1"] (by decide) (by decide)⟩

/-! ## Claims about the shape of the store -/

theorem markAll_key (id : Int) (names : List String) (s : Spot) :
    (markAll id names s).key = s.key := by
  unfold Spot.key
  rw [markAll_ID, markAll_Name, markAll_EventID]

theorem handle_keeps_shape (store : EventStore) (c : Call) :
    (handle store c).2.Events = store.Events ∧
      (handle store c).2.Spots.map Spot.key = store.Spots.map Spot.key := by
  rcases handle_store_cases store c with h | ⟨id, names, h⟩
  · rw [h]; exact ⟨rfl, rfl⟩
  · rw [h]
    refine ⟨rfl, ?_⟩
    simp only [List.map_map]
    apply List.map_congr_left
    intro s _
    exact markAll_key id names s

theorem runCalls_keeps_shape (calls : List Call) (store : EventStore) :
    (runCalls store calls).Events = store.Events ∧
      (runCalls store calls).Spots.map Spot.key = store.Spots.map Spot.key := by
  induction calls generalizing store with
  | nil => exact ⟨rfl, rfl⟩
  | cons c cs ih =>
    have h1 := handle_keeps_shape store c
    have h2 := ih (handle store c).2
    unfold runCalls at h2 ⊢
    rw [List.foldl_cons]
    exact ⟨h2.1.trans h1.1, h2.2.trans h1.2⟩

theorem UniqueIDs_iff_keys (store : EventStore) :
    UniqueIDs store ↔ ((store.Spots.map Spot.key).map (fun k => k.1)).Nodup := by
  unfold UniqueIDs
  rw [List.map_map]
  rfl

theorem UniqueNames_iff_keys (store : EventStore) :
    UniqueNames store ↔
      (store.Spots.map Spot.key).Pairwise
        (fun a b => ¬ (a.2.2 = b.2.2 ∧ a.2.1 = b.2.1)) := by
  unfold UniqueNames
  rw [List.pairwise_map]
  rfl

/-- C17, the structure of the store is preserved: after any single call of
`ListEvents`, `GetEvent`, `ListSpots` or `ReserveSpot`, and after any sequence
of such calls, the list of events is the one before, the list of spots has the
same length, and position by position every spot has the id, name and event
it had; hence spot ids that were unique are unique afterwards, and spot names
that were unique within an event are so afterwards. -/
theorem store_structure_preserved (store : EventStore) (c : Call) (calls : List Call) :
    ((handle store c).2.Events = store.Events ∧
     (handle store c).2.Spots.length = store.Spots.length ∧
     (handle store c).2.Spots.map Spot.key = store.Spots.map Spot.key) ∧
    ((runCalls store calls).Events = store.Events ∧
     (runCalls store calls).Spots.length = store.Spots.length ∧
     (runCalls store calls).Spots.map Spot.key = store.Spots.map Spot.key) ∧
    (∀ (i : Nat) (s : Spot), store.Spots[i]? = some s →
      ∃ t : Spot, (runCalls store calls).Spots[i]? = some t ∧
        t.ID = s.ID ∧ t.Name = s.Name ∧ t.EventID = s.EventID) ∧
    (UniqueIDs store → UniqueIDs (runCalls store calls)) ∧
    (UniqueNames store → UniqueNames (runCalls store calls)) := by
  have h1 := handle_keeps_shape store c
  have h2 := runCalls_keeps_shape calls store
  refine ⟨⟨h1.1, ?_, h1.2⟩, ⟨h2.1, ?_, h2.2⟩, ?_, ?_, ?_⟩
  · have := congrArg List.length h1.2
    simpa using this
  · have := congrArg List.length h2.2
    simpa using this
  · intro i s hs
    rcases runCalls_spot_at calls store i s hs with ⟨t, ht, g1, g2, g3, _⟩
    exact ⟨t, ht, g1, g2, g3⟩
  · intro hu
    rw [UniqueIDs_iff_keys] at hu ⊢
    rw [h2.2]; exact hu
  · intro hu
    rw [UniqueNames_iff_keys] at hu ⊢
    rw [h2.2]; exact hu

/-- Witness of C17: a successful reservation between two reads on the scenario
store, whose spot ids and names within an event are unique. -/
theorem store_structure_preserved_witness :
    UniqueIDs demoStore ∧ UniqueNames demoStore ∧
    runCalls demoStore [Call.listEvents, Call.reserveSpot "1" (some ["A1", "B1"]),
      Call.getEvent "1"] ≠ demoStore ∧
    UniqueIDs (runCalls demoStore [Call.listEvents,
      Call.reserveSpot "1" (some ["A1", "B1"]), Call.getEvent "1"]) ∧
    UniqueNames (runCalls demoStore [Call.listEvents,
      Call.reserveSpot "1" (some ["A1", "B1"]), Call.getEvent "1"]) :=
  ⟨by decide, by decide, by decide,
    (store_structure_preserved demoStore Call.listEvents [Call.listEvents,
      Call.reserveSpot "1" (some ["A1", "B1"]), Call.getEvent "1"]).2.2.2.1 (by decide),
    (store_structure_preserved demoStore Call.listEvents [Call.listEvents,
      Call.reserveSpot "1" (some ["A1", "B1"]), Call.getEvent "1"]).2.2.2.2 (by decide)⟩

/-! ## Claims about the empty batch -/

/-- C18, the empty batch succeeds vacuously: when the path value parses to an
event id whose event check passes, `ReserveSpot` with an empty list of names
answers 201 `Spots reserved successfully` and leaves the store unchanged. -/
theorem ReserveSpot_empty_batch (store : EventStore) (path : String) (id : Int)
    (hp : Atoi path = some id) (he : EventCheckPasses store id) :
    ReserveSpot store path (some []) =
      (writeResponse "Spots reserved successfully" StatusCreated, store) := by
  have hid : markAll id [] = (fun s => s) := by
    funext s
    exact markAll_of_not id [] s (fun h => absurd h.2 (List.not_mem_nil _))
  have hm : ¬ missingNames store id [] ≠ [] := fun h => h rfl
  have ht : ¬ reservedSpots store.Spots id [] ≠ [] := fun h => h rfl
  rw [ReserveSpot_unfold store path id [] hp, if_neg he, if_neg hm, if_neg ht, hid,
    List.map_id']
  rfl

/-- Witness of C18: event 1 of the scenario store passes the event check. -/
theorem ReserveSpot_empty_batch_witness :
    EventCheckPasses demoStore 1 ∧
    ReserveSpot demoStore "1" (some []) =
      (writeResponse "Spots reserved successfully" 201, demoStore) :=
  ⟨by decide, ReserveSpot_empty_batch demoStore "1" 1 (by decide) (by decide)⟩

end EventApi
